import Mathlib

/-!
# Verification of the per-frame brain-activity animation script (src/blender.py)

The script loads an MNE-Python source estimate, builds a two-hemisphere
cortical mesh, attaches a vertex-color material, and registers a frame
handler `my_handler` that, on every frame change, interpolates the activity
data at the current playback time and writes RGBA colors into the mesh's
"Brain Activity" vertex-color layer.

This file shallowly embeds the script: real numbers are modelled as `ℚ`,
NumPy arrays as `List`s, `np.searchsorted` as the fuel-bounded binary search
that NumPy implements (side='left'), and the Blender scene as a small
structure carrying the fields the handler reads (`frame_current`,
`render.fps`) plus unrelated scene state.
-/

/-- A Blender scene, restricted to what `my_handler` touches plus one field
of unrelated scene state (Blender scenes carry much more). -/
structure Scene where
  frame_current : ℕ
  fps : ℚ
  frame_start : ℕ
deriving DecidableEq

/-- An MNE source estimate: sample times `stc.times`, the dense
vertices × times data matrix `stc.data` (one row per vertex), and the
sampling step `stc.tstep`. -/
structure SourceEstimate where
  times : List ℚ
  data : List (List ℚ)
  tstep : ℚ
deriving DecidableEq

/-- An RGBA color with rational channels. -/
structure Color where
  r : ℚ
  g : ℚ
  b : ℚ
  a : ℚ
deriving DecidableEq

/-- Default color used for out-of-range `getD` reads. -/
def defaultColor : Color := ⟨0, 0, 0, 0⟩

/-- Line 96: `t = 0.01 * scene.frame_current / scene.render.fps`. -/
def frameTime (scene : Scene) : ℚ :=
  1 / 100 * scene.frame_current / scene.fps

/-- The binary-search loop of NumPy's `searchsorted` with side='left':
`lo = 0, hi = n; while lo < hi: mid = (lo + hi) // 2;
 if a[mid] < v: lo = mid + 1 else: hi = mid; return lo`.
The loop is driven by fuel so that the definition is structural; any fuel
at least `hi - lo` reaches the fixed point. -/
def binsearchAux (a : List ℚ) (v : ℚ) : ℕ → ℕ → ℕ → ℕ
  | 0, lo, _ => lo
  | fuel + 1, lo, hi =>
    if lo < hi then
      if a.getD ((lo + hi) / 2) 0 < v then
        binsearchAux a v fuel ((lo + hi) / 2 + 1) hi
      else
        binsearchAux a v fuel lo ((lo + hi) / 2)
    else lo

/-- `np.searchsorted(a, v)` (side='left'). -/
def searchsorted (a : List ℚ) (v : ℚ) : ℕ :=
  binsearchAux a v a.length 0 a.length

/-- Line 100: `frame_right = min(n_times - 1, np.searchsorted(stc.times, t))`. -/
def frameRight (stc : SourceEstimate) (t : ℚ) : ℕ :=
  min (stc.times.length - 1) (searchsorted stc.times t)

/-- Line 101: `frame_left = max(0, frame_right - 1)` (ℕ subtraction matches
Python's `max(0, · - 1)` on non-negative ints). -/
def frameLeft (stc : SourceEstimate) (t : ℚ) : ℕ :=
  max 0 (frameRight stc t - 1)

/-- Line 102: `interp = (t - stc.times[frame_left]) / stc.tstep`. -/
def interp (stc : SourceEstimate) (t : ℚ) : ℚ :=
  (t - stc.times.getD (frameLeft stc t) 0) / stc.tstep

/-- Lines 106-107: `interp_data = (1 - interp) * stc.data[:, frame_left]
+ interp * stc.data[:, frame_right]`, one value per vertex (matrix row). -/
def interpData (stc : SourceEstimate) (t : ℚ) : List ℚ :=
  stc.data.map fun row =>
    (1 - interp stc t) * row.getD (frameLeft stc t) 0 +
      interp stc t * row.getD (frameRight stc t) 0

/-- Line 112: the alpha channel is replaced by its complement,
`vertex_colors[:, 3] = 1 - vertex_colors[:, 3]`. -/
def flipAlpha (c : Color) : Color := { c with a := 1 - c.a }

/-- Lines 111-112: `vertex_colors = mapper.to_rgba(interp_data)` followed by
the alpha flip. The matplotlib `ScalarMappable` is external to the repo and
enters the model as an abstract map `mapper : ℚ → Color`. -/
def vertexColors (mapper : ℚ → Color) (stc : SourceEstimate) (t : ℚ) :
    List Color :=
  ((interpData stc t).map mapper).map flipAlpha

/-- Line 113: `face_colors = vertex_colors[faces]` — for each triangle, the
three colors of its corner vertices. -/
def faceColors (vcs : List Color) (faces : List (ℕ × ℕ × ℕ)) :
    List (List Color) :=
  faces.map fun f =>
    [vcs.getD f.1 defaultColor, vcs.getD f.2.1 defaultColor,
      vcs.getD f.2.2 defaultColor]

/-- Line 114: `color_layer.data.foreach_set('color', face_colors.ravel())` —
the flat sequence of loop colors written to the layer; loop `3 * f + j`
belongs to corner `j` of face `f`. -/
def colorLayerData (mapper : ℚ → Color) (stc : SourceEstimate)
    (faces : List (ℕ × ℕ × ℕ)) (t : ℚ) : List Color :=
  (faceColors (vertexColors mapper stc t) faces).flatten

/-- Corner `j` of a triangle (0, 1 or 2; out-of-range reads the last). -/
def corner (f : ℕ × ℕ × ℕ) : ℕ → ℕ
  | 0 => f.1
  | 1 => f.2.1
  | _ => f.2.2

/-- The state `my_handler` can reach: the mesh geometry built at lines
52-55, the material node links (lines 63-71), the source estimate (line
78), the "Brain Activity" color layer (line 64) and the mesh's
needs-redraw flag (line 115). -/
structure BlenderState where
  coords : List (ℚ × ℚ × ℚ)
  faces : List (ℕ × ℕ × ℕ)
  materialLinks : List (ℕ × ℕ)
  stc : SourceEstimate
  colorLayer : List Color
  meshDirty : Bool
deriving DecidableEq

/-- Lines 92-115: the frame handler as a state transformer. It writes the
color layer (`foreach_set`, line 114) and marks the mesh for redraw
(`mesh.update()`, line 115); it reads but never assigns the geometry, the
material and the source estimate. -/
def my_handler (mapper : ℚ → Color) (st : BlenderState) (scene : Scene) :
    BlenderState :=
  { st with
    colorLayer := colorLayerData mapper st.stc st.faces (frameTime scene)
    meshDirty := true }

/-- Lines 92-115 of `my_handler` with every array access checked and the
division guarded: `none` is the (unreachable) error outcome. Mirrors the
handler body: index the time vector at `frame_left`, divide by `tstep`,
lerp each matrix row at `frame_left`/`frame_right`, map to RGBA, flip
alpha, gather the three corner colors of every face, and flatten. -/
def myHandlerChecked (mapper : ℚ → Color) (stc : SourceEstimate)
    (faces : List (ℕ × ℕ × ℕ)) (scene : Scene) : Option (List Color) :=
  if scene.fps = 0 then none
  else (stc.times[frameLeft stc (frameTime scene)]?).bind fun tl =>
    if stc.tstep = 0 then none
    else
      (stc.data.mapM fun row =>
          (row[frameLeft stc (frameTime scene)]?).bind fun xl =>
            (row[frameRight stc (frameTime scene)]?).bind fun xr =>
              some ((1 - (frameTime scene - tl) / stc.tstep) * xl +
                (frameTime scene - tl) / stc.tstep * xr)).bind
        fun interp_data =>
          (faces.mapM fun f =>
              (((interp_data.map mapper).map flipAlpha)[f.1]?).bind fun cl =>
                (((interp_data.map mapper).map flipAlpha)[f.2.1]?).bind
                  fun cm =>
                    (((interp_data.map mapper).map flipAlpha)[f.2.2]?).bind
                      fun cr => some [cl, cm, cr]).bind
            fun face_colors => some face_colors.flatten

/-- The top-level steps of the script, in source order (with `low_res =
True`, the branch the script takes at line 35). -/
inductive ScriptStep where
  /-- Lines 37-42: `setup_source_space` and extraction of the hemisphere
  coordinates and faces. -/
  | loadSurfaceData
  /-- Lines 52-55: stack the hemispheres and `mesh.from_pydata`. -/
  | buildMesh
  /-- Lines 58-61: link the collection and the mesh object to the scene. -/
  | linkMeshToScene
  /-- Lines 63-71: color layer, material, shader nodes, and
  `materials.append`. -/
  | attachMaterial
  /-- Lines 74-75: `use_smooth` on every polygon. -/
  | smoothShading
  /-- Line 78: `mne.read_source_estimate`. -/
  | loadActivityData
  /-- Lines 87-90: `_process_clim`, `_linearize_map`, `Normalize`,
  `ScalarMappable`. -/
  | configureColormap
  /-- Line 117: `bpy.app.handlers.frame_change_pre.clear()`. -/
  | clearFrameHandlers
  /-- Line 118: `bpy.app.handlers.frame_change_pre.append(my_handler)`. -/
  | registerFrameHandler
  /-- Line 119: `my_handler(bpy.data.scenes[0])` — a direct call, outside
  any frame-change event. -/
  | callHandlerDirectly
deriving DecidableEq

/-- The script body (lines 35-119) as the ordered list of its top-level
steps. -/
def scriptSteps : List ScriptStep :=
  [.loadSurfaceData, .buildMesh, .linkMeshToScene, .attachMaterial,
    .smoothShading, .loadActivityData, .configureColormap,
    .clearFrameHandlers, .registerFrameHandler, .callHandlerDirectly]

/-- Steps that run `my_handler` other than through the host's frame-change
event. -/
def runsHandlerOutsideFrameEvent : ScriptStep → Bool
  | .callHandlerDirectly => true
  | _ => false

/-- Steps that load data through the neuroimaging library. -/
def isDataLoad : ScriptStep → Bool
  | .loadSurfaceData => true
  | .loadActivityData => true
  | _ => false

/-- Step `s₁` executes before step `s₂` in the script. -/
def precedes (s₁ s₂ : ScriptStep) : Prop :=
  scriptSteps.indexOf s₁ < scriptSteps.indexOf s₂

instance : DecidablePred fun p : ScriptStep × ScriptStep =>
    precedes p.1 p.2 := fun p => by
  unfold precedes
  infer_instance

/-- Line 53: the right-hemisphere faces are offset by the number of
left-hemisphere vertices when the hemispheres are stacked,
`faces = np.vstack((faces_lh, faces_rh + len(coords_lh)))`. -/
def offsetFace (n : ℕ) (f : ℕ × ℕ × ℕ) : ℕ × ℕ × ℕ :=
  (f.1 + n, f.2.1 + n, f.2.2 + n)

/-- The combined faces array of line 53. -/
def combinedFaces (faces_lh faces_rh : List (ℕ × ℕ × ℕ)) (n_lh : ℕ) :
    List (ℕ × ℕ × ℕ) :=
  faces_lh ++ faces_rh.map (offsetFace n_lh)

/-- Line 52: `coords = np.vstack((coords_lh, coords_rh))`. -/
def combinedCoords (coords_lh coords_rh : List (ℚ × ℚ × ℚ)) :
    List (ℚ × ℚ × ℚ) :=
  coords_lh ++ coords_rh

/-- A triangle whose three corner indices address a vertex array of `n`
entries. -/
def faceValid (n : ℕ) (f : ℕ × ℕ × ℕ) : Prop :=
  f.1 < n ∧ f.2.1 < n ∧ f.2.2 < n

instance (n : ℕ) (f : ℕ × ℕ × ℕ) : Decidable (faceValid n f) := by
  unfold faceValid
  infer_instance

/-- Invariant of the binary-search loop: starting from a window `[lo, hi)`
whose left part is all `< v` and whose right part is all `≥ v`, with enough
fuel, the loop lands on the leftmost insertion point. -/
theorem binsearchAux_spec (a : List ℚ) (v : ℚ)
    (hsort : ∀ i j, i ≤ j → j < a.length → a.getD i 0 ≤ a.getD j 0) :
    ∀ fuel lo hi, hi - lo ≤ fuel → lo ≤ hi → hi ≤ a.length →
      (∀ i, i < lo → a.getD i 0 < v) →
      (∀ i, hi ≤ i → i < a.length → v ≤ a.getD i 0) →
      lo ≤ binsearchAux a v fuel lo hi ∧
      binsearchAux a v fuel lo hi ≤ hi ∧
      (∀ i, i < binsearchAux a v fuel lo hi → a.getD i 0 < v) ∧
      (∀ i, binsearchAux a v fuel lo hi ≤ i → i < a.length →
        v ≤ a.getD i 0) := by
  intro fuel
  induction fuel with
  | zero =>
    intro lo hi hfuel hlohi hhin hlo hhi
    have h : lo = hi := by omega
    subst h
    exact ⟨le_rfl, le_rfl, hlo, hhi⟩
  | succ fuel ih =>
    intro lo hi hfuel hlohi hhin hlo hhi
    rw [binsearchAux]
    by_cases hlt : lo < hi
    · rw [if_pos hlt]
      have hmidlo : lo ≤ (lo + hi) / 2 := by omega
      have hmidhi : (lo + hi) / 2 < hi := by omega
      by_cases hcmp : a.getD ((lo + hi) / 2) 0 < v
      · rw [if_pos hcmp]
        have h := ih ((lo + hi) / 2 + 1) hi (by omega) (by omega) hhin
          (fun i hilt =>
            lt_of_le_of_lt (hsort i ((lo + hi) / 2) (by omega) (by omega))
              hcmp)
          hhi
        exact ⟨le_trans (by omega) h.1, h.2.1, h.2.2.1, h.2.2.2⟩
      · rw [if_neg hcmp]
        have h := ih lo ((lo + hi) / 2) (by omega) (by omega) (by omega) hlo
          (fun i h1 h2 => le_trans (not_lt.mp hcmp) (hsort _ i h1 h2))
        exact ⟨h.1, le_trans h.2.1 (by omega), h.2.2.1, h.2.2.2⟩
    · rw [if_neg hlt]
      have h : lo = hi := by omega
      subst h
      exact ⟨le_rfl, le_rfl, hlo, hhi⟩

/-- Characterization of `np.searchsorted(a, v, side='left')` on a sorted
vector: everything before the result is `< v`, everything from the result
on is `≥ v`. -/
theorem searchsorted_spec (a : List ℚ) (v : ℚ)
    (hsort : ∀ i j, i ≤ j → j < a.length → a.getD i 0 ≤ a.getD j 0) :
    searchsorted a v ≤ a.length ∧
    (∀ i, i < searchsorted a v → a.getD i 0 < v) ∧
    (∀ i, searchsorted a v ≤ i → i < a.length → v ≤ a.getD i 0) := by
  have h := binsearchAux_spec a v hsort a.length 0 a.length (by omega)
    (by omega) le_rfl (by omega) (by intro i h1 h2; omega)
  exact ⟨h.2.1, h.2.2.1, h.2.2.2⟩

/-- An MNE source estimate samples time uniformly:
`stc.times[i] = stc.times[0] + i * stc.tstep`. This makes the time vector
monotone when the step is positive. -/
theorem uniform_sorted (stc : SourceEstimate)
    (huni : ∀ i, i < stc.times.length →
      stc.times.getD i 0 = stc.times.getD 0 0 + i * stc.tstep)
    (hstep : 0 < stc.tstep) :
    ∀ i j, i ≤ j → j < stc.times.length →
      stc.times.getD i 0 ≤ stc.times.getD j 0 := by
  intro i j hij hj
  rw [huni i (by omega), huni j hj]
  have hc : (i : ℚ) ≤ j := by exact_mod_cast hij
  nlinarith

/-- Strict version of `uniform_sorted`. -/
theorem uniform_sorted_strict (stc : SourceEstimate)
    (huni : ∀ i, i < stc.times.length →
      stc.times.getD i 0 = stc.times.getD 0 0 + i * stc.tstep)
    (hstep : 0 < stc.tstep) :
    ∀ i j, i < j → j < stc.times.length →
      stc.times.getD i 0 < stc.times.getD j 0 := by
  intro i j hij hj
  rw [huni i (by omega), huni j hj]
  have hc : (i : ℚ) < j := by exact_mod_cast hij
  nlinarith

/-- Claim C1 (amended: the playback time must lie strictly above the first
sample time; at `t` exactly the first sample time the handler clamps both
indices to 0 and they are not consecutive). For every playback time
`t = frameTime scene` with `times[0] < t ≤ times[n-1]` and at least two
samples, the indices `frame_left` and `frame_right` chosen by `my_handler`
via the sorted binary search `searchsorted` are consecutive and bound `t`:
`times[frame_left] ≤ t ≤ times[frame_right]`. -/
theorem c1_bounding_frames (stc : SourceEstimate) (scene : Scene)
    (hn : 2 ≤ stc.times.length)
    (huni : ∀ i, i < stc.times.length →
      stc.times.getD i 0 = stc.times.getD 0 0 + i * stc.tstep)
    (hstep : 0 < stc.tstep)
    (hlow : stc.times.getD 0 0 < frameTime scene)
    (hhigh : frameTime scene ≤ stc.times.getD (stc.times.length - 1) 0) :
    frameLeft stc (frameTime scene) + 1 = frameRight stc (frameTime scene) ∧
    stc.times.getD (frameLeft stc (frameTime scene)) 0 ≤ frameTime scene ∧
    frameTime scene ≤ stc.times.getD (frameRight stc (frameTime scene)) 0 := by
  obtain ⟨hslen, hbelow, habove⟩ :=
    searchsorted_spec stc.times (frameTime scene)
      (uniform_sorted stc huni hstep)
  have hs1 : 1 ≤ searchsorted stc.times (frameTime scene) := by
    by_contra hcon
    have h0 := habove 0 (by omega) (by omega)
    linarith
  have hsn : searchsorted stc.times (frameTime scene) ≤
      stc.times.length - 1 := by
    by_contra hcon
    have h0 := hbelow (stc.times.length - 1) (by omega)
    linarith
  have hfr : frameRight stc (frameTime scene) =
      searchsorted stc.times (frameTime scene) := by
    unfold frameRight
    omega
  have hfl : frameLeft stc (frameTime scene) =
      searchsorted stc.times (frameTime scene) - 1 := by
    unfold frameLeft
    rw [hfr]
    omega
  refine ⟨by omega, ?_, ?_⟩
  · rw [hfl]
    exact le_of_lt (hbelow _ (by omega))
  · rw [hfr]
    exact habove _ le_rfl (by omega)

/-- Claim C1, as stated, is false at the boundary: with samples at times
`[0, 1]` and playback time `t = 0` (frame 0), `t` lies between the first
and last sample times, yet the handler computes
`frame_left = frame_right = 0`, which are not consecutive. -/
theorem c1_counterexample :
    2 ≤ (⟨[0, 1], [[0, 0]], 1⟩ : SourceEstimate).times.length ∧
    (⟨[0, 1], [[0, 0]], 1⟩ : SourceEstimate).times.getD 0 0 ≤
      frameTime ⟨0, 1, 0⟩ ∧
    frameTime ⟨0, 1, 0⟩ ≤
      (⟨[0, 1], [[0, 0]], 1⟩ : SourceEstimate).times.getD 1 0 ∧
    frameLeft ⟨[0, 1], [[0, 0]], 1⟩ (frameTime ⟨0, 1, 0⟩) + 1 ≠
      frameRight ⟨[0, 1], [[0, 0]], 1⟩ (frameTime ⟨0, 1, 0⟩) := by
  norm_num [frameTime, frameLeft, frameRight, searchsorted, binsearchAux,
    List.getD]

/-- Witness for `c1_bounding_frames` at times `[0, 1, 2]`, step 1, frame 150
at 1 fps, i.e. `t = 3/2`. -/
theorem c1_witness :
    (2 ≤ (⟨[0, 1, 2], [[0, 0, 0]], 1⟩ : SourceEstimate).times.length ∧
      (0 : ℚ) < (⟨[0, 1, 2], [[0, 0, 0]], 1⟩ : SourceEstimate).tstep ∧
      (⟨[0, 1, 2], [[0, 0, 0]], 1⟩ : SourceEstimate).times.getD 0 0 <
        frameTime ⟨150, 1, 0⟩) ∧
    frameLeft ⟨[0, 1, 2], [[0, 0, 0]], 1⟩ (frameTime ⟨150, 1, 0⟩) + 1 =
      frameRight ⟨[0, 1, 2], [[0, 0, 0]], 1⟩ (frameTime ⟨150, 1, 0⟩) ∧
    (⟨[0, 1, 2], [[0, 0, 0]], 1⟩ : SourceEstimate).times.getD
        (frameLeft ⟨[0, 1, 2], [[0, 0, 0]], 1⟩ (frameTime ⟨150, 1, 0⟩)) 0 ≤
      frameTime ⟨150, 1, 0⟩ ∧
    frameTime ⟨150, 1, 0⟩ ≤
      (⟨[0, 1, 2], [[0, 0, 0]], 1⟩ : SourceEstimate).times.getD
        (frameRight ⟨[0, 1, 2], [[0, 0, 0]], 1⟩ (frameTime ⟨150, 1, 0⟩)) 0 :=
  ⟨⟨by norm_num, by norm_num, by norm_num [frameTime, List.getD]⟩,
    c1_bounding_frames ⟨[0, 1, 2], [[0, 0, 0]], 1⟩ ⟨150, 1, 0⟩
      (by norm_num)
      (by
        intro i hi
        simp only [List.length_cons, List.length_nil] at hi
        interval_cases i <;> norm_num [List.getD])
      (by norm_num)
      (by norm_num [frameTime, List.getD])
      (by norm_num [frameTime, List.getD])⟩

/-- Access to one vertex of the interpolated data vector: entry `v` is the
lerp of the two chosen samples of matrix row `v`. -/
theorem interpData_getD (stc : SourceEstimate) (t : ℚ) (v : ℕ)
    (hv : v < stc.data.length) :
    (interpData stc t).getD v 0 =
      (1 - interp stc t) * (stc.data.getD v []).getD (frameLeft stc t) 0 +
        interp stc t * (stc.data.getD v []).getD (frameRight stc t) 0 := by
  unfold interpData
  rw [List.getD_eq_getElem _ _ (by simpa using hv), List.getElem_map,
    List.getD_eq_getElem _ _ hv]

/-- Consecutive sample times differ by exactly `tstep`. -/
theorem times_gap (stc : SourceEstimate)
    (huni : ∀ i, i < stc.times.length →
      stc.times.getD i 0 = stc.times.getD 0 0 + i * stc.tstep)
    (k : ℕ) (hk1 : 1 ≤ k) (hk : k < stc.times.length) :
    stc.times.getD k 0 = stc.times.getD (k - 1) 0 + stc.tstep := by
  rw [huni k hk, huni (k - 1) (by omega)]
  rw [Nat.cast_sub hk1, Nat.cast_one]
  ring

/-- At playback time exactly the first sample time, the handler clamps both
frame indices to 0 and the interpolation weight is 0. -/
theorem frames_at_sample_zero (stc : SourceEstimate)
    (huni : ∀ i, i < stc.times.length →
      stc.times.getD i 0 = stc.times.getD 0 0 + i * stc.tstep)
    (hstep : 0 < stc.tstep) :
    frameRight stc (stc.times.getD 0 0) = 0 ∧
    frameLeft stc (stc.times.getD 0 0) = 0 ∧
    interp stc (stc.times.getD 0 0) = 0 := by
  obtain ⟨hslen, hbelow, habove⟩ :=
    searchsorted_spec stc.times (stc.times.getD 0 0)
      (uniform_sorted stc huni hstep)
  have hs0 : searchsorted stc.times (stc.times.getD 0 0) = 0 := by
    by_contra hcon
    have h0 := hbelow 0 (by omega)
    linarith
  have hfr : frameRight stc (stc.times.getD 0 0) = 0 := by
    unfold frameRight
    omega
  have hfl : frameLeft stc (stc.times.getD 0 0) = 0 := by
    unfold frameLeft
    rw [hfr]
    omega
  refine ⟨hfr, hfl, ?_⟩
  unfold interp
  rw [hfl, sub_self, zero_div]

/-- At playback time exactly sample time `k ≥ 1`, the handler picks
`frame_right = k` and the interpolation weight is exactly 1. -/
theorem frames_at_sample_pos (stc : SourceEstimate)
    (huni : ∀ i, i < stc.times.length →
      stc.times.getD i 0 = stc.times.getD 0 0 + i * stc.tstep)
    (hstep : 0 < stc.tstep) (k : ℕ) (hk1 : 1 ≤ k)
    (hk : k < stc.times.length) :
    frameRight stc (stc.times.getD k 0) = k ∧
    frameLeft stc (stc.times.getD k 0) = k - 1 ∧
    interp stc (stc.times.getD k 0) = 1 := by
  obtain ⟨hslen, hbelow, habove⟩ :=
    searchsorted_spec stc.times (stc.times.getD k 0)
      (uniform_sorted stc huni hstep)
  have hsk : searchsorted stc.times (stc.times.getD k 0) = k := by
    rcases lt_trichotomy (searchsorted stc.times (stc.times.getD k 0)) k with
      hlt | heq | hgt
    · have h1 := habove _ le_rfl (by omega)
      have h2 := uniform_sorted_strict stc huni hstep _ k hlt hk
      linarith
    · exact heq
    · have h1 := hbelow k hgt
      linarith
  have hfr : frameRight stc (stc.times.getD k 0) = k := by
    unfold frameRight
    omega
  have hfl : frameLeft stc (stc.times.getD k 0) = k - 1 := by
    unfold frameLeft
    rw [hfr]
    omega
  refine ⟨hfr, hfl, ?_⟩
  unfold interp
  rw [hfl, times_gap stc huni k hk1 hk]
  rw [add_sub_cancel_left]
  exact div_self (ne_of_gt hstep)

/-- For a playback time inside the sampled interval, the interpolation
weight computed by `my_handler` lies in `[0, 1]`. -/
theorem interp_mem_unit (stc : SourceEstimate) (t : ℚ)
    (hn : 1 ≤ stc.times.length)
    (huni : ∀ i, i < stc.times.length →
      stc.times.getD i 0 = stc.times.getD 0 0 + i * stc.tstep)
    (hstep : 0 < stc.tstep)
    (hlow : stc.times.getD 0 0 ≤ t)
    (hhigh : t ≤ stc.times.getD (stc.times.length - 1) 0) :
    0 ≤ interp stc t ∧ interp stc t ≤ 1 := by
  obtain ⟨hslen, hbelow, habove⟩ :=
    searchsorted_spec stc.times t (uniform_sorted stc huni hstep)
  by_cases hs0 : searchsorted stc.times t = 0
  · have hteq : t = stc.times.getD 0 0 :=
      le_antisymm (habove 0 (by omega) (by omega)) hlow
    rw [hteq]
    rw [(frames_at_sample_zero stc huni hstep).2.2]
    norm_num
  · have hs1 : 1 ≤ searchsorted stc.times t := by omega
    have hsn : searchsorted stc.times t ≤ stc.times.length - 1 := by
      by_contra hcon
      have h0 := hbelow (stc.times.length - 1) (by omega)
      linarith
    have hfr : frameRight stc t = searchsorted stc.times t := by
      unfold frameRight
      omega
    have hfl : frameLeft stc t = searchsorted stc.times t - 1 := by
      unfold frameLeft
      rw [hfr]
      omega
    have hleft : stc.times.getD (searchsorted stc.times t - 1) 0 < t :=
      hbelow _ (by omega)
    have hright : t ≤ stc.times.getD (searchsorted stc.times t) 0 :=
      habove _ le_rfl (by omega)
    have hgap := times_gap stc huni (searchsorted stc.times t) hs1 (by omega)
    unfold interp
    rw [hfl]
    constructor
    · exact div_nonneg (by linarith) (le_of_lt hstep)
    · rw [div_le_one hstep]
      linarith

/-- Claim C2 (amended: the weight lies in `[0, 1]` and the result lies
between the two chosen samples only for playback times inside the sampled
interval `[times[0], times[n-1]]`; beyond the last sample the handler
extrapolates with a weight above 1). The per-vertex activity vector is the
lerp `(1 - w) * data[:, frame_left] + w * data[:, frame_right]` with
`w = (t - times[frame_left]) / tstep`; for `t` in the sampled interval the
weight lies in `[0, 1]`, each vertex value lies between its two chosen
samples, and at `t` equal to a sample time the result equals that sample
column exactly. -/
theorem c2_lerp (stc : SourceEstimate) (scene : Scene)
    (hn : 1 ≤ stc.times.length)
    (huni : ∀ i, i < stc.times.length →
      stc.times.getD i 0 = stc.times.getD 0 0 + i * stc.tstep)
    (hstep : 0 < stc.tstep)
    (hlow : stc.times.getD 0 0 ≤ frameTime scene)
    (hhigh : frameTime scene ≤ stc.times.getD (stc.times.length - 1) 0) :
    (interpData stc (frameTime scene) = stc.data.map fun row =>
        (1 - interp stc (frameTime scene)) *
            row.getD (frameLeft stc (frameTime scene)) 0 +
          interp stc (frameTime scene) *
            row.getD (frameRight stc (frameTime scene)) 0) ∧
    0 ≤ interp stc (frameTime scene) ∧ interp stc (frameTime scene) ≤ 1 ∧
    (∀ v, v < stc.data.length →
      min ((stc.data.getD v []).getD (frameLeft stc (frameTime scene)) 0)
          ((stc.data.getD v []).getD (frameRight stc (frameTime scene)) 0) ≤
        (interpData stc (frameTime scene)).getD v 0 ∧
      (interpData stc (frameTime scene)).getD v 0 ≤
        max ((stc.data.getD v []).getD (frameLeft stc (frameTime scene)) 0)
          ((stc.data.getD v []).getD
            (frameRight stc (frameTime scene)) 0)) ∧
    (∀ k, k < stc.times.length →
      frameTime scene = stc.times.getD k 0 →
      interpData stc (frameTime scene) =
        stc.data.map fun row => row.getD k 0) := by
  obtain ⟨hw0, hw1⟩ :=
    interp_mem_unit stc (frameTime scene) hn huni hstep hlow hhigh
  refine ⟨rfl, hw0, hw1, ?_, ?_⟩
  · intro v hv
    rw [interpData_getD stc (frameTime scene) v hv]
    rcases le_total ((stc.data.getD v []).getD
        (frameLeft stc (frameTime scene)) 0)
      ((stc.data.getD v []).getD (frameRight stc (frameTime scene)) 0) with
      hc | hc
    · rw [min_eq_left hc, max_eq_right hc]
      constructor <;> nlinarith
    · rw [min_eq_right hc, max_eq_left hc]
      constructor <;> nlinarith
  · intro k hk hteq
    unfold interpData
    refine List.map_congr_left ?_
    intro row hrow
    rcases Nat.eq_zero_or_pos k with hk0 | hk1
    · subst hk0
      rw [hteq]
      obtain ⟨hfr, hfl, hw⟩ := frames_at_sample_zero stc huni hstep
      rw [hfr, hfl, hw]
      ring
    · rw [hteq]
      obtain ⟨hfr, hfl, hw⟩ := frames_at_sample_pos stc huni hstep k hk1 hk
      rw [hfr, hw]
      ring

/-- Claim C2, as stated, is false for playback times beyond the last
sample: with samples at times `[0, 1]`, step 1, frame 200 at 1 fps the
playback time is `t = 2` and the handler's weight is 2, outside `[0, 1]`;
with data row `[0, 1]` the interpolated value is 2, not between the two
chosen samples. -/
theorem c2_counterexample :
    interp ⟨[0, 1], [[0, 1]], 1⟩ (frameTime ⟨200, 1, 0⟩) = 2 ∧
    ¬ interp ⟨[0, 1], [[0, 1]], 1⟩ (frameTime ⟨200, 1, 0⟩) ≤ 1 ∧
    (interpData ⟨[0, 1], [[0, 1]], 1⟩ (frameTime ⟨200, 1, 0⟩)).getD 0 0 =
      2 := by
  norm_num [interp, interpData, frameTime, frameLeft, frameRight,
    searchsorted, binsearchAux, List.getD]

/-- Witness for `c2_lerp` at times `[0, 1]`, step 1, data row `[3, 5]`,
frame 50 at 1 fps, i.e. `t = 1/2` and weight `1/2`. -/
theorem c2_witness :
    (1 ≤ (⟨[0, 1], [[3, 5]], 1⟩ : SourceEstimate).times.length ∧
      (0 : ℚ) < (⟨[0, 1], [[3, 5]], 1⟩ : SourceEstimate).tstep ∧
      (⟨[0, 1], [[3, 5]], 1⟩ : SourceEstimate).times.getD 0 0 ≤
        frameTime ⟨50, 1, 0⟩) ∧
    0 ≤ interp ⟨[0, 1], [[3, 5]], 1⟩ (frameTime ⟨50, 1, 0⟩) ∧
    interp ⟨[0, 1], [[3, 5]], 1⟩ (frameTime ⟨50, 1, 0⟩) ≤ 1 :=
  ⟨⟨by norm_num, by norm_num, by norm_num [frameTime, List.getD]⟩,
    (c2_lerp ⟨[0, 1], [[3, 5]], 1⟩ ⟨50, 1, 0⟩
      (by norm_num)
      (by
        intro i hi
        simp only [List.length_cons, List.length_nil] at hi
        interval_cases i <;> norm_num [List.getD])
      (by norm_num)
      (by norm_num [frameTime, List.getD])
      (by norm_num [frameTime, List.getD])).2.1,
    (c2_lerp ⟨[0, 1], [[3, 5]], 1⟩ ⟨50, 1, 0⟩
      (by norm_num)
      (by
        intro i hi
        simp only [List.length_cons, List.length_nil] at hi
        interval_cases i <;> norm_num [List.getD])
      (by norm_num)
      (by norm_num [frameTime, List.getD])
      (by norm_num [frameTime, List.getD])).2.2.1⟩

/-- The flat loop-color sequence produced by `face_colors.ravel()`: loop
`3 * f + j` receives the color of corner `j` of face `f`. -/
theorem faceColors_flatten_getD (vcs : List Color) :
    ∀ (faces : List (ℕ × ℕ × ℕ)) (f j : ℕ), f < faces.length → j < 3 →
      ((faceColors vcs faces).flatten).getD (3 * f + j) defaultColor =
        vcs.getD (corner (faces.getD f (0, 0, 0)) j) defaultColor := by
  intro faces
  induction faces with
  | nil =>
    intro f j hf hj
    simp only [List.length_nil] at hf
    omega
  | cons x xs ih =>
    intro f j hf hj
    cases f with
    | zero =>
      interval_cases j <;> simp [faceColors, corner]
    | succ f =>
      have hx : (faceColors vcs (x :: xs)).flatten =
          [vcs.getD x.1 defaultColor, vcs.getD x.2.1 defaultColor,
            vcs.getD x.2.2 defaultColor] ++ (faceColors vcs xs).flatten := by
        simp [faceColors]
      rw [hx, List.getD_append_right _ _ _ _ (by simp; omega)]
      simp only [List.length_cons, List.length_nil, List.getD_cons_succ]
      have harith : 3 * (f + 1) + j - (0 + 1 + 1 + 1) = 3 * f + j := by omega
      rw [harith]
      exact ih f j (by simpa using hf) hj

/-- Claim C3: after an invocation of `my_handler`, the color written to the
loop for corner `j` of face `f` (flat loop index `3 * f + j`) is exactly
the mapped color of that corner's vertex interpolated activity value,
`interp_data[faces[f][j]]`. -/
theorem c3_face_colors (mapper : ℚ → Color) (stc : SourceEstimate)
    (faces : List (ℕ × ℕ × ℕ)) (scene : Scene) (f j : ℕ)
    (hf : f < faces.length) (hj : j < 3) :
    (colorLayerData mapper stc faces (frameTime scene)).getD (3 * f + j)
        defaultColor =
      (vertexColors mapper stc (frameTime scene)).getD
        (corner (faces.getD f (0, 0, 0)) j) defaultColor :=
  faceColors_flatten_getD (vertexColors mapper stc (frameTime scene))
    faces f j hf hj

/-- Witness for `c3_face_colors`: one triangle over one vertex. -/
theorem c3_witness :
    ((0 : ℕ) < ([(0, 0, 0)] : List (ℕ × ℕ × ℕ)).length ∧ (0 : ℕ) < 3) ∧
    (colorLayerData (fun x => ⟨x, x, x, 1⟩) ⟨[0], [[5]], 1⟩ [(0, 0, 0)]
          (frameTime ⟨0, 1, 0⟩)).getD (3 * 0 + 0) defaultColor =
      (vertexColors (fun x => ⟨x, x, x, 1⟩) ⟨[0], [[5]], 1⟩
          (frameTime ⟨0, 1, 0⟩)).getD
        (corner (([(0, 0, 0)] : List (ℕ × ℕ × ℕ)).getD 0 (0, 0, 0)) 0)
        defaultColor :=
  ⟨⟨by norm_num, by norm_num⟩,
    c3_face_colors (fun x => ⟨x, x, x, 1⟩) ⟨[0], [[5]], 1⟩ [(0, 0, 0)]
      ⟨0, 1, 0⟩ 0 0 (by norm_num) (by norm_num)⟩

/-- Claim C9: the handler stores the mapper's RGB channels unmodified and
complements the alpha channel, `vertex_colors[:, 3] = 1 - vertex_colors[:, 3]`. -/
theorem c9_alpha_complement (mapper : ℚ → Color) (stc : SourceEstimate)
    (t : ℚ) (v : ℕ) (hv : v < (interpData stc t).length) :
    ((vertexColors mapper stc t).getD v defaultColor).r =
      (mapper ((interpData stc t).getD v 0)).r ∧
    ((vertexColors mapper stc t).getD v defaultColor).g =
      (mapper ((interpData stc t).getD v 0)).g ∧
    ((vertexColors mapper stc t).getD v defaultColor).b =
      (mapper ((interpData stc t).getD v 0)).b ∧
    ((vertexColors mapper stc t).getD v defaultColor).a =
      1 - (mapper ((interpData stc t).getD v 0)).a := by
  have h1 : (vertexColors mapper stc t).getD v defaultColor =
      flipAlpha (mapper ((interpData stc t).getD v 0)) := by
    unfold vertexColors
    rw [List.getD_eq_getElem _ _ (by simpa using hv), List.getElem_map,
      List.getElem_map, List.getD_eq_getElem _ _ hv]
  rw [h1]
  exact ⟨rfl, rfl, rfl, rfl⟩

/-- Witness for `c9_alpha_complement`: one vertex, identity-like mapper with
alpha `1`, stored alpha `0`. -/
theorem c9_witness :
    (0 : ℕ) < (interpData ⟨[0], [[5]], 1⟩ (frameTime ⟨0, 1, 0⟩)).length ∧
    ((vertexColors (fun x => ⟨x, x, x, 1⟩) ⟨[0], [[5]], 1⟩
          (frameTime ⟨0, 1, 0⟩)).getD 0 defaultColor).a =
      1 - ((fun (x : ℚ) => Color.mk x x x 1)
          ((interpData ⟨[0], [[5]], 1⟩ (frameTime ⟨0, 1, 0⟩)).getD 0 0)).a :=
  ⟨by norm_num [interpData],
    (c9_alpha_complement (fun x => ⟨x, x, x, 1⟩) ⟨[0], [[5]], 1⟩
      (frameTime ⟨0, 1, 0⟩) 0 (by norm_num [interpData])).2.2.2⟩

/-- Claim C5: `my_handler` is deterministic — two invocations agreeing on
the frame number, the fps, the source estimate, the faces and the colormap
state write the same colors, even if the scenes differ in unrelated state
(here `frame_start`). -/
theorem c5_deterministic (mapper₁ mapper₂ : ℚ → Color)
    (stc₁ stc₂ : SourceEstimate) (faces₁ faces₂ : List (ℕ × ℕ × ℕ))
    (s₁ s₂ : Scene) (hm : mapper₁ = mapper₂) (hstc : stc₁ = stc₂)
    (hfaces : faces₁ = faces₂)
    (hframe : s₁.frame_current = s₂.frame_current)
    (hfps : s₁.fps = s₂.fps) :
    colorLayerData mapper₁ stc₁ faces₁ (frameTime s₁) =
      colorLayerData mapper₂ stc₂ faces₂ (frameTime s₂) := by
  subst hm hstc hfaces
  have ht : frameTime s₁ = frameTime s₂ := by
    unfold frameTime
    rw [hframe, hfps]
  rw [ht]

/-- Witness for `c5_deterministic`: two scenes equal on frame and fps but
different in `frame_start`. -/
theorem c5_witness :
    ((⟨7, 2, 0⟩ : Scene).frame_current = (⟨7, 2, 5⟩ : Scene).frame_current ∧
      (⟨7, 2, 0⟩ : Scene).fps = (⟨7, 2, 5⟩ : Scene).fps) ∧
    colorLayerData (fun x => ⟨x, x, x, 1⟩) ⟨[0], [[5]], 1⟩ [(0, 0, 0)]
        (frameTime ⟨7, 2, 0⟩) =
      colorLayerData (fun x => ⟨x, x, x, 1⟩) ⟨[0], [[5]], 1⟩ [(0, 0, 0)]
        (frameTime ⟨7, 2, 5⟩) :=
  ⟨⟨rfl, rfl⟩,
    c5_deterministic (fun x => ⟨x, x, x, 1⟩) (fun x => ⟨x, x, x, 1⟩)
      ⟨[0], [[5]], 1⟩ ⟨[0], [[5]], 1⟩ [(0, 0, 0)] [(0, 0, 0)]
      ⟨7, 2, 0⟩ ⟨7, 2, 5⟩ rfl rfl rfl rfl rfl⟩

/-- Claim C8: every invocation of `my_handler` modifies only the vertex
color layer (and the redraw flag); the vertex coordinates, the triangle
index triples, the material node graph and the source-estimate data and
times are unchanged. -/
theorem c8_frame_effect (mapper : ℚ → Color) (st : BlenderState)
    (scene : Scene) :
    (my_handler mapper st scene).coords = st.coords ∧
    (my_handler mapper st scene).faces = st.faces ∧
    (my_handler mapper st scene).materialLinks = st.materialLinks ∧
    (my_handler mapper st scene).stc.data = st.stc.data ∧
    (my_handler mapper st scene).stc.times = st.stc.times ∧
    (my_handler mapper st scene).colorLayer =
      colorLayerData mapper st.stc st.faces (frameTime scene) :=
  ⟨rfl, rfl, rfl, rfl, rfl, rfl⟩

/-- In the `Option` monad, `mapM` succeeds when the function succeeds on
every element. -/
theorem isSome_mapM_option {α β : Type} (f : α → Option β) (l : List α)
    (h : ∀ a ∈ l, (f a).isSome) : (l.mapM f).isSome := by
  induction l with
  | nil => rfl
  | cons x xs ih =>
    rw [List.mapM_cons]
    obtain ⟨y, hy⟩ :=
      Option.isSome_iff_exists.mp (h x (List.mem_cons_self x xs))
    obtain ⟨ys, hys⟩ := Option.isSome_iff_exists.mp
      (ih fun a ha => h a (List.mem_cons_of_mem x ha))
    have hys₂ : List.mapM.loop f xs [] = some ys := by
      simpa [List.mapM] using hys
    simp [hy, hys, hys₂]

/-- A successful `mapM` in the `Option` monad preserves length. -/
theorem length_eq_of_mapM_option {α β : Type} (f : α → Option β) :
    ∀ (l : List α) (l₂ : List β), l.mapM f = some l₂ →
      l₂.length = l.length := by
  intro l
  induction l with
  | nil =>
    intro l₂ h
    simp only [List.mapM_nil, pure] at h
    cases h
    rfl
  | cons x xs ih =>
    intro l₂ h
    rw [List.mapM_cons] at h
    cases hfx : f x with
    | none => rw [hfx] at h; simp at h
    | some y =>
      cases hxs : xs.mapM f with
      | none => rw [hfx, hxs] at h; simp at h
      | some ys =>
        rw [hfx, hxs] at h
        simp only [Option.some_bind, pure] at h
        cases h
        simp [ih ys hxs]

/-- Claim C4: given a source estimate with at least one time sample, a
non-zero time step, a well-formed data matrix, and faces indexing the data
rows, every array access of `my_handler` is in bounds and the division is
defined: the checked handler never reaches its error branch. -/
theorem c4_no_failure (mapper : ℚ → Color) (stc : SourceEstimate)
    (faces : List (ℕ × ℕ × ℕ)) (scene : Scene)
    (hfps : 0 < scene.fps)
    (hn : 1 ≤ stc.times.length)
    (hstep : stc.tstep ≠ 0)
    (hrows : ∀ row ∈ stc.data, row.length = stc.times.length)
    (hfaces : ∀ f ∈ faces, f.1 < stc.data.length ∧
      f.2.1 < stc.data.length ∧ f.2.2 < stc.data.length) :
    (myHandlerChecked mapper stc faces scene).isSome := by
  have hfr : frameRight stc (frameTime scene) < stc.times.length := by
    unfold frameRight
    omega
  have hfl : frameLeft stc (frameTime scene) < stc.times.length := by
    unfold frameLeft
    omega
  have hdata : (stc.data.mapM fun row =>
      (row[frameLeft stc (frameTime scene)]?).bind fun xl =>
        (row[frameRight stc (frameTime scene)]?).bind fun xr =>
          some ((1 - (frameTime scene -
                stc.times[frameLeft stc (frameTime scene)]) / stc.tstep) *
              xl +
            (frameTime scene -
                stc.times[frameLeft stc (frameTime scene)]) / stc.tstep *
              xr)).isSome := by
    refine isSome_mapM_option _ _ ?_
    intro row hrow
    have hl : frameLeft stc (frameTime scene) < row.length := by
      rw [hrows row hrow]
      exact hfl
    have hr : frameRight stc (frameTime scene) < row.length := by
      rw [hrows row hrow]
      exact hfr
    simp only [List.getElem?_eq_getElem hl, List.getElem?_eq_getElem hr,
      Option.some_bind]
    rfl
  obtain ⟨interp_data, hidata⟩ := Option.isSome_iff_exists.mp hdata
  have hlen : interp_data.length = stc.data.length :=
    length_eq_of_mapM_option _ _ _ hidata
  have hfcs : (faces.mapM fun f =>
      (((interp_data.map mapper).map flipAlpha)[f.1]?).bind fun cl =>
        (((interp_data.map mapper).map flipAlpha)[f.2.1]?).bind fun cm =>
          (((interp_data.map mapper).map flipAlpha)[f.2.2]?).bind fun cr =>
            some [cl, cm, cr]).isSome := by
    refine isSome_mapM_option _ _ ?_
    intro f hf
    have h1 : f.1 < ((interp_data.map mapper).map flipAlpha).length := by
      simp only [List.length_map, hlen]
      exact (hfaces f hf).1
    have h2 : f.2.1 < ((interp_data.map mapper).map flipAlpha).length := by
      simp only [List.length_map, hlen]
      exact (hfaces f hf).2.1
    have h3 : f.2.2 < ((interp_data.map mapper).map flipAlpha).length := by
      simp only [List.length_map, hlen]
      exact (hfaces f hf).2.2
    simp only [List.getElem?_eq_getElem h1, List.getElem?_eq_getElem h2,
      List.getElem?_eq_getElem h3, Option.some_bind]
    rfl
  obtain ⟨face_colors, hfcseq⟩ := Option.isSome_iff_exists.mp hfcs
  unfold myHandlerChecked
  rw [if_neg (ne_of_gt hfps), List.getElem?_eq_getElem hfl]
  simp only [Option.some_bind, if_neg hstep, hidata, hfcseq]
  rfl

/-- Witness for `c4_no_failure`: one sample, one vertex, one degenerate
triangle, frame 0. -/
theorem c4_witness :
    ((0 : ℚ) < (⟨0, 1, 0⟩ : Scene).fps ∧
      1 ≤ (⟨[0], [[5]], 1⟩ : SourceEstimate).times.length ∧
      (⟨[0], [[5]], 1⟩ : SourceEstimate).tstep ≠ 0 ∧
      (∀ row ∈ (⟨[0], [[5]], 1⟩ : SourceEstimate).data,
        row.length = (⟨[0], [[5]], 1⟩ : SourceEstimate).times.length)) ∧
    (myHandlerChecked (fun x => ⟨x, x, x, 1⟩) ⟨[0], [[5]], 1⟩ [(0, 0, 0)]
        ⟨0, 1, 0⟩).isSome :=
  ⟨⟨by norm_num, by norm_num, by norm_num,
      by
        intro row hrow
        rw [List.mem_singleton] at hrow
        subst hrow
        rfl⟩,
    c4_no_failure (fun x => ⟨x, x, x, 1⟩) ⟨[0], [[5]], 1⟩ [(0, 0, 0)]
      ⟨0, 1, 0⟩ (by norm_num) (by norm_num) (by norm_num)
      (by
        intro row hrow
        rw [List.mem_singleton] at hrow
        subst hrow
        rfl)
      (by
        intro f hf
        rw [List.mem_singleton] at hf
        subst hf
        exact ⟨by norm_num, by norm_num, by norm_num⟩)⟩

/-- Claim C6, as stated, is false: line 119 of the script invokes
`my_handler` directly, outside any frame-change event — the direct call is
one of the script's steps. -/
theorem c6_counterexample :
    ScriptStep.callHandlerDirectly ∈ scriptSteps ∧
    runsHandlerOutsideFrameEvent .callHandlerDirectly = true ∧
    ¬ (∀ s ∈ scriptSteps, runsHandlerOutsideFrameEvent s = false) := by
  refine ⟨by decide, rfl, ?_⟩
  intro hall
  exact absurd (hall ScriptStep.callHandlerDirectly (by decide)) (by decide)

/-- Claim C6 (amended): the script registers `my_handler` on the host's
frame-change event exactly once and, apart from that event, invokes it
directly exactly once, as the script's final step. -/
theorem c6_handler_invocation :
    scriptSteps.countP runsHandlerOutsideFrameEvent = 1 ∧
    scriptSteps.getLast? = some .callHandlerDirectly ∧
    scriptSteps.countP (fun s => s = ScriptStep.registerFrameHandler) = 1 := by
  decide

/-- Claim C7, as stated, is false: the activity data is loaded (line 78)
after the mesh is built (line 55), so not all data loading precedes mesh
construction; and callback registration (line 118) is not the last step —
the direct handler call (line 119) follows it. -/
theorem c7_counterexample :
    ScriptStep.loadActivityData ∈ scriptSteps ∧
    isDataLoad .loadActivityData = true ∧
    ¬ precedes .loadActivityData .buildMesh ∧
    scriptSteps.getLast? ≠ some .registerFrameHandler := by
  refine ⟨by decide, rfl, ?_, by decide⟩
  unfold precedes
  decide

/-- Claim C7 (amended): the script's top-level order is: load the surface
data, build the mesh, attach the material, load the activity data,
configure the colormap, then register exactly one frame callback; the
registration is the last step except for a single direct handler
invocation that ends the script. -/
theorem c7_script_order :
    precedes .loadSurfaceData .buildMesh ∧
    precedes .buildMesh .attachMaterial ∧
    precedes .attachMaterial .loadActivityData ∧
    precedes .loadActivityData .configureColormap ∧
    precedes .configureColormap .clearFrameHandlers ∧
    precedes .clearFrameHandlers .registerFrameHandler ∧
    precedes .registerFrameHandler .callHandlerDirectly ∧
    scriptSteps.countP (fun s => s = ScriptStep.registerFrameHandler) = 1 ∧
    scriptSteps.getLast? = some .callHandlerDirectly := by
  unfold precedes
  decide

/-- Claim C10: if each hemisphere's faces index its own vertices, every
entry of the combined faces array is below the combined vertex count, so
the handler's gather `vertex_colors[faces]` stays in bounds. -/
theorem c10_combined_faces_valid (faces_lh faces_rh : List (ℕ × ℕ × ℕ))
    (coords_lh coords_rh : List (ℚ × ℚ × ℚ))
    (hlh : ∀ f ∈ faces_lh, faceValid coords_lh.length f)
    (hrh : ∀ f ∈ faces_rh, faceValid coords_rh.length f) :
    ∀ f ∈ combinedFaces faces_lh faces_rh coords_lh.length,
      faceValid (combinedCoords coords_lh coords_rh).length f := by
  intro f hf
  unfold combinedFaces at hf
  rw [List.mem_append] at hf
  unfold combinedCoords
  rw [List.length_append]
  rcases hf with hf | hf
  · obtain ⟨h1, h2, h3⟩ := hlh f hf
    exact ⟨by omega, by omega, by omega⟩
  · rw [List.mem_map] at hf
    obtain ⟨g, hg, hgf⟩ := hf
    obtain ⟨h1, h2, h3⟩ := hrh g hg
    subst hgf
    unfold offsetFace faceValid
    dsimp only
    exact ⟨by omega, by omega, by omega⟩

/-- Witness for `c10_combined_faces_valid`: two one-triangle hemispheres of
three vertices each. -/
theorem c10_witness :
    ((∀ f ∈ [((0 : ℕ), (1 : ℕ), (2 : ℕ))],
        faceValid ([(0, 0, 0), (0, 0, 1), (0, 1, 0)] :
          List (ℚ × ℚ × ℚ)).length f) ∧
      (∀ f ∈ [((2 : ℕ), (1 : ℕ), (0 : ℕ))],
        faceValid ([(1, 0, 0), (1, 0, 1), (1, 1, 0)] :
          List (ℚ × ℚ × ℚ)).length f)) ∧
    (∀ f ∈ combinedFaces [(0, 1, 2)] [(2, 1, 0)]
        ([(0, 0, 0), (0, 0, 1), (0, 1, 0)] : List (ℚ × ℚ × ℚ)).length,
      faceValid (combinedCoords
        ([(0, 0, 0), (0, 0, 1), (0, 1, 0)] : List (ℚ × ℚ × ℚ))
        ([(1, 0, 0), (1, 0, 1), (1, 1, 0)] :
          List (ℚ × ℚ × ℚ))).length f) :=
  ⟨⟨by decide, by decide⟩,
    c10_combined_faces_valid [(0, 1, 2)] [(2, 1, 0)]
      [(0, 0, 0), (0, 0, 1), (0, 1, 0)] [(1, 0, 0), (1, 0, 1), (1, 1, 0)]
      (by decide) (by decide)⟩
